import Mathlib

/-!
Verification of the wtfport port-monitoring tool.

This development shallowly embeds the parts of the repository that the
checked properties concern:

  * the Unix and Windows platform adapters (src/platform/unix-adapter.ts,
    src/platform/windows-adapter.ts): process termination (killProcess),
    listing-tool output parsing (parseLsofOutput, parseNetstatOutput) and
    etime parsing (parseEtime);
  * the port actions (src/actions/port-actions.ts): killPort and
    killPortByNumber;
  * the dashboard (src/tui/dashboard.ts, src/tui/dashboard-handlers.ts):
    the keyboard-driven modal state machine, moveSelection, handleKill and
    the delta/full repaint decision.

External effects (spawned commands, timers) are modelled by explicit
environment records giving each spawned command's outcome; a thrown
JavaScript exception is modelled as the `Except.error` case.  The
per-adapter process-metadata cache (CacheManager, whose source file is not
part of the embedded tree) is modelled from its call sites and the spec as
a list of cached pids: only key membership matters for the properties here.
-/

namespace Wtfport

/-! ## Spawned-command outcomes -/

/-- Result of a spawned external command, mirroring the fields of the
`spawnProcess` result that the adapters consult. -/
structure SpawnResult where
  exitCode : Int
  stdout : String
  stderr : String
deriving Repr, DecidableEq

/-- Outcome of one `spawnProcess` call: `Except.error` models the promise
rejecting (a thrown error), `Except.ok` a completed process. -/
abbrev SpawnOutcome := Except Unit SpawnResult

/-! ## Process metadata cache (CacheManager)

Modelled from the spec: the CacheManager source file is not in the
embedded tree; §4.2 of the spec gives its contract (`get` hits present
unexpired keys, `delete(pid)` removes immediately).  For the claims below
only key membership matters, so the cache is a list of pids. -/

/-- Pids currently present in the process metadata cache. -/
abbrev Cache := List Nat

/-- Modelled from the spec: `CacheManager.delete(pid)` removes the entry
for `pid` immediately. -/
def cacheDelete (pid : Nat) (c : Cache) : Cache :=
  c.filter (fun k => k ≠ pid)

/-- Modelled from the spec: a cache lookup for `pid` hits iff an entry for
`pid` is present. -/
def cacheHas (pid : Nat) (c : Cache) : Bool :=
  c.contains pid

/-! ## killProcess (unix-adapter.ts / windows-adapter.ts)

The four commands a `killProcess` call may spawn, with their outcomes
fixed up front by the environment:

  * `forceRes`:  `kill -9 <pid>` / `taskkill /F /PID <pid>` in the
    `force === true` branch;
  * `termRes`:   `kill -TERM <pid>` / `taskkill /PID <pid>`;
  * `checkRes`:  the liveness check `ps -p <pid>` /
    `tasklist /FI "PID eq <pid>" /FO CSV /NH`;
  * `escRes`:    the forceful escalation `kill -9` / `taskkill /F` after
    the 1-second wait.
-/

structure KillEnv where
  forceRes : SpawnOutcome
  termRes : SpawnOutcome
  checkRes : SpawnOutcome
  escRes : SpawnOutcome
deriving Repr

/-- What a `killProcess` call did: its boolean result, the cache it left
behind, how many forceful termination requests it issued, and whether the
fixed 1-second wait was performed. -/
structure KillOutcome where
  result : Bool
  cache : Cache
  forceSignals : Nat
  waited : Bool
deriving Repr, DecidableEq

/-- `UnixPlatformAdapter.killProcess(pid, force)`.  The source invalidates
the metadata cache only when `killed` is true, or in the `catch` block when
a spawn threw; an ordinary `false` return leaves the cache untouched. -/
def unixKillProcess (env : KillEnv) (c : Cache) (pid : Nat) (force : Bool) :
    KillOutcome :=
  if force then
    -- force: one `kill -9`, success iff exit code 0
    match env.forceRes with
    | .error _ => ⟨false, cacheDelete pid c, 1, false⟩
    | .ok p =>
      let killed := p.exitCode = 0
      ⟨killed, if killed then cacheDelete pid c else c, 1, false⟩
  else
    -- graceful: `kill -TERM`
    match env.termRes with
    | .error _ => ⟨false, cacheDelete pid c, 0, false⟩
    | .ok p =>
      if p.exitCode ≠ 0 then
        -- early return false: no wait, no escalation, no invalidation
        ⟨false, c, 0, false⟩
      else
        -- 1-second wait, then liveness check `ps -p <pid>`
        match env.checkRes with
        | .error _ => ⟨false, cacheDelete pid c, 0, true⟩
        | .ok chk =>
          if chk.exitCode = 0 then
            -- still alive: escalate with `kill -9`
            match env.escRes with
            | .error _ => ⟨false, cacheDelete pid c, 1, true⟩
            | .ok f =>
              let killed := f.exitCode = 0
              ⟨killed, if killed then cacheDelete pid c else c, 1, true⟩
          else
            -- process gone: success without a forceful signal
            ⟨true, cacheDelete pid c, 0, true⟩

/-- `WindowsPlatformAdapter.killProcess(pid, force)`.  Identical control
flow to the Unix adapter except for the liveness check: the process is
considered still alive when the filtered `tasklist` exits 0 AND its
trimmed stdout is nonempty. -/
def windowsKillProcess (env : KillEnv) (c : Cache) (pid : Nat) (force : Bool) :
    KillOutcome :=
  if force then
    match env.forceRes with
    | .error _ => ⟨false, cacheDelete pid c, 1, false⟩
    | .ok p =>
      let killed := p.exitCode = 0
      ⟨killed, if killed then cacheDelete pid c else c, 1, false⟩
  else
    match env.termRes with
    | .error _ => ⟨false, cacheDelete pid c, 0, false⟩
    | .ok p =>
      if p.exitCode ≠ 0 then
        ⟨false, c, 0, false⟩
      else
        match env.checkRes with
        | .error _ => ⟨false, cacheDelete pid c, 0, true⟩
        | .ok chk =>
          if chk.exitCode = 0 ∧ chk.stdout.trim ≠ "" then
            match env.escRes with
            | .error _ => ⟨false, cacheDelete pid c, 1, true⟩
            | .ok f =>
              let killed := f.exitCode = 0
              ⟨killed, if killed then cacheDelete pid c else c, 1, true⟩
          else
            ⟨true, cacheDelete pid c, 0, true⟩

/-- Whether the control path taken by `killProcess` with this environment
runs into a thrown spawn (and hence the `catch` block).  Mirrors the
control flow of both adapters for the spawns shared between them; the
liveness-check interpretation differs per adapter, so the adapter's
aliveness reading is a parameter. -/
def killErrPath (alive : SpawnResult → Bool) (env : KillEnv) (force : Bool) :
    Bool :=
  if force then
    match env.forceRes with
    | .error _ => true
    | .ok _ => false
  else
    match env.termRes with
    | .error _ => true
    | .ok p =>
      if p.exitCode ≠ 0 then false
      else
        match env.checkRes with
        | .error _ => true
        | .ok chk =>
          if alive chk then
            match env.escRes with
            | .error _ => true
            | .ok _ => false
          else false

/-- Unix liveness reading: `ps -p <pid>` exit code 0 means still alive. -/
def unixAlive (chk : SpawnResult) : Bool := chk.exitCode = 0

/-- Windows liveness reading: alive iff filtered `tasklist` exits 0 with
nonempty trimmed stdout. -/
def windowsAlive (chk : SpawnResult) : Bool :=
  chk.exitCode = 0 ∧ chk.stdout.trim ≠ ""

/-! ## Port data model (src/port/types.ts) -/

inductive Protocol where
  | tcp
  | udp
deriving Repr, DecidableEq

/-- One observed listening socket bound to a process, as produced by a
discovery cycle (the `PortInfo` interface). -/
structure PortInfo where
  port : Nat
  protocol : Protocol
  pid : Nat
  processName : String
  command : String
  cwd : Option String
  user : String
  lifetime : Option Nat
  type : Option String := none
deriving Repr, DecidableEq

/-! ## killPort (src/actions/port-actions.ts) -/

/-- Adapter-side state a kill can affect: the metadata cache and the set of
live processes. -/
structure AdapterState where
  cache : Cache
  alivePids : List Nat
deriving Repr, DecidableEq

/-- A platform adapter's `killProcess(pid, force)` as seen from the port
actions: it may flip its boolean result and change adapter state in any
way. -/
def KillAdapter : Type := Nat → Bool → AdapterState → Bool × AdapterState

/-- `killPort(portInfo, force, confirm)` from port-actions.ts.  Returns the
boolean result, the adapter state after the call, and how many times the
adapter's `killProcess` was invoked.  With `confirm && !force` it returns
`false` before reaching the adapter (a confirmation-needed sentinel). -/
def killPort (adapter : KillAdapter) (st : AdapterState) (info : PortInfo)
    (force confirm : Bool) : Bool × AdapterState × Nat :=
  if confirm && !force then
    (false, st, 0)
  else
    let r := adapter info.pid force st
    (r.1, r.2, 1)

/-! ## JavaScript string primitives used by the parsers -/

/-- Numeric value of a nonempty list of leading decimal digits: the
behaviour of JS `parseInt(s, 10)` on the digit run at the start of `s`
(`none` models `NaN`). -/
def digitsVal (l : List Char) : Option Nat :=
  let ds := l.takeWhile Char.isDigit
  if ds.isEmpty then none
  else some (ds.foldl (fun acc c => acc * 10 + (c.toNat - 48)) 0)

/-- JS `parseInt(s, 10)`: optional sign then leading decimal digits;
`none` models `NaN`.  (Leading whitespace never occurs at the call sites
modelled here.) -/
def parseIntJS (s : String) : Option Int :=
  match s.data with
  | '-' :: rest => (digitsVal rest).map (fun n => -(n : Int))
  | '+' :: rest => (digitsVal rest).map (fun n => (n : Int))
  | rest => (digitsVal rest).map (fun n => (n : Int))

/-- JS `parseInt(s, 10) || 0` on the separator-free fields produced by the
etime split: the leading-digits value, or 0 when there are none. -/
def parseIntOr0 (s : String) : Nat :=
  (digitsVal s.data).getD 0

/-- Split a character list at every character satisfying `p`, keeping
empty pieces (the behaviour of JS `split` on a single-character
separator). -/
def splitChars (p : Char → Bool) : List Char → List (List Char)
  | [] => [[]]
  | c :: t =>
    match splitChars p t with
    | [] => [[]]
    | h :: r => if p c then [] :: h :: r else (c :: h) :: r

/-- `s.split p` over explicit character lists. -/
def strSplit (s : String) (p : Char → Bool) : List String :=
  (splitChars p s.data).map (fun l => ⟨l⟩)

/-- JS `String.prototype.trim` (whitespace from both ends). -/
def strTrim (s : String) : String :=
  ⟨((s.data.dropWhile Char.isWhitespace).reverse.dropWhile
    Char.isWhitespace).reverse⟩

/-- JS `s.startsWith(pre)`. -/
def strStartsWith (s pre : String) : Bool :=
  pre.data.isPrefixOf s.data

/-- JS `parts.join(" ")`. -/
def strJoinSpace (l : List String) : String :=
  ⟨(List.intersperse [' '] (l.map String.data)).flatten⟩

/-- JS `line.trim().split(/\s+/)` on an already trimmed line: maximal
whitespace-free tokens. -/
def splitWs (s : String) : List String :=
  (strSplit s Char.isWhitespace).filter (fun t => t ≠ "")

/-- Whether `pat` occurs as a contiguous sublist (JS
`String.prototype.includes`). -/
def listContainsSub (pat : List Char) : List Char → Bool
  | [] => pat.isEmpty
  | c :: t => pat.isPrefixOf (c :: t) || listContainsSub pat t

/-- JS `s.includes(pat)`. -/
def strIncludes (s pat : String) : Bool :=
  listContainsSub pat.data s.data

/-- Split a multi-line tool output into its nonblank lines:
`output.trim().split("\n").filter((line) => line.trim())`. -/
def toolOutputLines (output : String) : List String :=
  (strSplit (strTrim output) (fun c => c = '\n')).filter
    (fun l => strTrim l ≠ "")

/-! ## Unix lsof parsing (unix-adapter.ts, parseLsofOutput) -/

/-- Character class `[\w.]` of the lsof NAME-field regex
(`/(\*|[\w.]+):(\d+)/`). -/
def isWordDot (c : Char) : Bool :=
  c.isAlphanum || c = '_' || c = '.'

/-- Try to match `(\*|[\w.]+):(\d+)` starting at this position, returning
the port capture.  The first alternative is the literal `*`; the second a
maximal `[\w.]+` run (backtracking cannot shorten it, because no run
character can match the following `:`).  The `(\d+)` capture is the
maximal digit run. -/
def hostPortAt (l : List Char) : Option Nat :=
  match l with
  | '*' :: rest =>
    (match rest with
     | ':' :: rest2 => digitsVal rest2
     | _ => none)
  | _ =>
    let run := l.takeWhile isWordDot
    if run.isEmpty then none
    else
      match l.drop run.length with
      | ':' :: rest2 => digitsVal rest2
      | _ => none

/-- Leftmost match of `(\*|[\w.]+):(\d+)` in the NAME field (JS
`name.match(...)`), returning the parsed port. -/
def findHostPort : List Char → Option Nat
  | [] => none
  | c :: t =>
    match hostPortAt (c :: t) with
    | some p => some p
    | none => findHostPort t

/-- A `PortInfo` as built by the platform parsers.  `pid` is the JS
`parseInt` result: `none` models `NaN` (the Unix parser stores it
unchecked).  `command`, `cwd` and `lifetime` start as placeholders and are
filled by batch enrichment. -/
structure UPortInfo where
  port : Nat
  protocol : Protocol
  pid : Option Int
  processName : String
  command : String
  cwd : Option String
  user : String
  lifetime : Option Nat
deriving Repr, DecidableEq

/-- Parse one lsof output line (the loop body of `parseLsofOutput`):
skip the header, whitespace-split, require ≥ 9 columns, keep only
`IPv4`/`IPv6` rows whose NAME field contains `(LISTEN)`, extract the port
from the NAME field and the protocol from a `UDP` marker. -/
def parseLsofLine (line : String) : Option UPortInfo :=
  if strStartsWith line "COMMAND" then none
  else
    let parts := splitWs (strTrim line)
    if parts.length < 9 then none
    else
      let command := parts.getD 0 ""
      let pid := parseIntJS (parts.getD 1 "")
      let user := parts.getD 2 ""
      let ty := parts.getD 4 ""
      let name := strJoinSpace (parts.drop 8)
      if ty ≠ "IPv4" ∧ ty ≠ "IPv6" then none
      else if ¬(strIncludes name "(LISTEN)" = true) then none
      else
        match findHostPort name.data with
        | none => none
        | some port =>
          some ⟨port, if strIncludes name "UDP" then Protocol.udp
                      else Protocol.tcp,
            pid, command, "", none, user, none⟩

/-- The parsing pass of `UnixPlatformAdapter.parseLsofOutput`: every line
either contributes one `PortInfo` or is skipped.  No deduplication is
performed. -/
def parseLsofOutput (output : String) : List UPortInfo :=
  (toolOutputLines output).filterMap parseLsofLine

/-- Batch metadata for a pid: command, cwd and lifetime. -/
structure ProcMeta where
  command : String
  cwd : Option String
  lifetime : Option Nat
deriving Repr, DecidableEq

/-- The merge step, per port: overlay the batch-resolved metadata for the
port's pid, if resolved. -/
def enrichOne (meta : Option Int → Option ProcMeta) (p : UPortInfo) :
    UPortInfo :=
  match meta p.pid with
  | some i => { p with command := i.command
                       cwd := i.cwd
                       lifetime := i.lifetime }
  | none => p

/-- The merge step of a discovery cycle: map the batch-resolved metadata
back onto each `PortInfo` by pid (ports with no resolved entry are kept
as-is). -/
def applyBatchInfo (meta : Option Int → Option ProcMeta)
    (ports : List UPortInfo) : List UPortInfo :=
  ports.map (enrichOne meta)

/-- A full Unix discovery cycle's port list: parse, then enrich. -/
def unixDetectPorts (output : String) (meta : Option Int → Option ProcMeta) :
    List UPortInfo :=
  applyBatchInfo meta (parseLsofOutput output)

/-! ## Etime parsing (unix-adapter.ts, getBatchProcessInfoFromPs and
parseEtime) -/

/-- Full-string match of `\d{1,2}:\d{2}` (the `mm:ss` pattern body). -/
def fmMMSS : List Char → Bool
  | [a, c, b1, b2] =>
    a.isDigit && c = ':' && b1.isDigit && b2.isDigit
  | [a1, a2, c, b1, b2] =>
    a1.isDigit && a2.isDigit && c = ':' && b1.isDigit && b2.isDigit
  | _ => false

/-- Full-string match of `\d{1,2}:\d{2}:\d{2}` (the `hh:mm:ss` pattern
body). -/
def fmHHMMSS : List Char → Bool
  | [h, c1, m1, m2, c2, s1, s2] =>
    h.isDigit && c1 = ':' && m1.isDigit && m2.isDigit && c2 = ':' &&
      s1.isDigit && s2.isDigit
  | [h1, h2, c1, m1, m2, c2, s1, s2] =>
    h1.isDigit && h2.isDigit && c1 = ':' && m1.isDigit && m2.isDigit &&
      c2 = ':' && s1.isDigit && s2.isDigit
  | _ => false

/-- Full-string match of `\d{1,2}-\d{1,2}:\d{2}:\d{2}` (the
`dd-hh:mm:ss` pattern body); the length-10 case covers both the 1+2 and
2+1 digit splits. -/
def fmDDHHMMSS : List Char → Bool
  | [d1, x, h1, c1, m1, m2, c2, s1, s2] =>
    d1.isDigit && x = '-' && h1.isDigit && c1 = ':' && m1.isDigit &&
      m2.isDigit && c2 = ':' && s1.isDigit && s2.isDigit
  | [a1, a2, a3, a4, c1, m1, m2, c2, s1, s2] =>
    ((a1.isDigit && a2 = '-' && a3.isDigit && a4.isDigit) ||
     (a1.isDigit && a2.isDigit && a3 = '-' && a4.isDigit)) &&
      c1 = ':' && m1.isDigit && m2.isDigit && c2 = ':' && s1.isDigit &&
      s2.isDigit
  | [d1, d2, x, h1, h2, c1, m1, m2, c2, s1, s2] =>
    d1.isDigit && d2.isDigit && x = '-' && h1.isDigit && h2.isDigit &&
      c1 = ':' && m1.isDigit && m2.isDigit && c2 = ':' && s1.isDigit &&
      s2.isDigit
  | _ => false

/-- Leftmost match of an end-anchored pattern: the first position whose
entire remaining suffix satisfies the pattern body (JS `trimmed.match`
with a `$`-anchored regex). -/
def findSuffixMatch (fm : List Char → Bool) : List Char → Option (List Char)
  | [] => if fm [] then some [] else none
  | c :: t => if fm (c :: t) then some (c :: t) else findSuffixMatch fm t

/-- The etime-pattern loop of `getBatchProcessInfoFromPs`: try
`dd-hh:mm:ss`, then `hh:mm:ss`, then `mm:ss`, each anchored to the end of
the line; return the matched text. -/
def etimeMatch (line : String) : Option String :=
  match findSuffixMatch fmDDHHMMSS line.data with
  | some m => some ⟨m⟩
  | none =>
    match findSuffixMatch fmHHMMSS line.data with
    | some m => some ⟨m⟩
    | none =>
      match findSuffixMatch fmMMSS line.data with
      | some m => some ⟨m⟩
      | none => none

/-- `UnixPlatformAdapter.parseEtime`: split on `:` and `-`, convert by
field count (`dd-hh:mm:ss`, `hh:mm:ss` or `mm:ss`), and return no
lifetime when the total is zero (or the string empty or unrecognised). -/
def parseEtime (etimeStr : String) : Option Nat :=
  if etimeStr = "" then none
  else
    let parts := strSplit etimeStr (fun c => c = ':' ∨ c = '-')
    let total :=
      if parts.length = 4 then
        parseIntOr0 (parts.getD 0 "") * 86400 +
          parseIntOr0 (parts.getD 1 "") * 3600 +
          parseIntOr0 (parts.getD 2 "") * 60 + parseIntOr0 (parts.getD 3 "")
      else if parts.length = 3 then
        parseIntOr0 (parts.getD 0 "") * 3600 +
          parseIntOr0 (parts.getD 1 "") * 60 + parseIntOr0 (parts.getD 2 "")
      else if parts.length = 2 then
        parseIntOr0 (parts.getD 0 "") * 60 + parseIntOr0 (parts.getD 1 "")
      else 0
    if total > 0 then some total else none

/-! ## Windows netstat parsing (windows-adapter.ts, parseNetstatOutput) -/

/-- JS `toUpperCase` on the ASCII protocol token. -/
def upperAscii (s : String) : String :=
  ⟨s.data.map Char.toUpper⟩

/-- Try to match `:(\d+)$` starting at this position: a colon followed by
a nonempty all-digit run extending to the end of the string. -/
def colonDigitsAt : List Char → Option (List Char)
  | ':' :: rest =>
    if rest.isEmpty then none
    else if rest.all Char.isDigit then some rest else none
  | _ => none

/-- Leftmost match of `:(\d+)$` (JS `localAddr.match(/:(\d+)$/)`),
returning the digit capture. -/
def findColonDigits : List Char → Option (List Char)
  | [] => none
  | c :: t =>
    match colonDigitsAt (c :: t) with
    | some ds => some ds
    | none => findColonDigits t

/-- Parse one netstat output line (the loop body of
`parseNetstatOutput`): skip headers, whitespace-split, require ≥ 5
columns, a `TCP`/`UDP` protocol, the last column equal to `LISTENING`, a
`:port` suffix on the local address, and non-`NaN` port and pid (the pid
is parsed from the line's last column). -/
def parseNetstatLine (line : String) : Option UPortInfo :=
  if strStartsWith line "Active" || strStartsWith line "Proto" ||
      strStartsWith line "  Proto" then none
  else
    let parts := splitWs (strTrim line)
    if parts.length < 5 then none
    else
      let protocol := upperAscii (parts.getD 0 "")
      if protocol ≠ "TCP" ∧ protocol ≠ "UDP" then none
      else if parts.getD (parts.length - 1) "" ≠ "LISTENING" then none
      else
        match findColonDigits (parts.getD 1 "").data with
        | none => none
        | some ds =>
          match digitsVal ds, parseIntJS (parts.getD (parts.length - 1) "") with
          | some port, some pid =>
            some ⟨port, if protocol = "UDP" then Protocol.udp else Protocol.tcp,
              some pid, "", "", none, "", none⟩
          | _, _ => none

/-- The string rendering JS gives a number inside a template literal
(`NaN` for the NaN case). -/
def jsNumToString : Option Int → String
  | some n => toString n
  | none => "NaN"

/-- The dedup key of `parseNetstatOutput`: the template literal
`port-pid`. -/
def portPidKey (p : UPortInfo) : String :=
  toString p.port ++ "-" ++ jsNumToString p.pid

/-- The dedup pass of `parseNetstatOutput`: a `seen` map keyed by
`port-pid` keeps the first entry per key, preserving insertion order. -/
def dedupByKey (seen : List String) : List UPortInfo → List UPortInfo
  | [] => []
  | p :: rest =>
    if portPidKey p ∈ seen then dedupByKey seen rest
    else p :: dedupByKey (portPidKey p :: seen) rest

/-- `WindowsPlatformAdapter.parseNetstatOutput`: line parsing followed by
the (port, pid) dedup pass. -/
def parseNetstatOutput (output : String) : List UPortInfo :=
  dedupByKey [] ((toolOutputLines output).filterMap parseNetstatLine)

/-- A full Windows discovery cycle's port list: parse, dedupe, then
enrich. -/
def windowsDetectPorts (output : String)
    (meta : Option Int → Option ProcMeta) : List UPortInfo :=
  applyBatchInfo meta (parseNetstatOutput output)

/-! ## killPortByNumber (src/actions/port-actions.ts) -/

/-- The `{success, killed, message}` result of `killPortByNumber`. -/
structure KillByPortResult where
  success : Bool
  killed : List PortInfo
  message : String
deriving Repr, DecidableEq

/-- Environment for a `killPortByNumber` run: the detector's result (or a
thrown error's message) and each pid's `killProcess` outcome (the
`process-utils.killProcess` wrapper catches all throws and returns
false). -/
structure KPBEnv where
  detectRes : Except String (List PortInfo)
  killOk : Nat → Bool

/-- The kill loop of `killPortByNumber` over the matching ports: returns
the `killed` and `failed` lists in iteration order. -/
def killLoop (killOk : Nat → Bool) : List PortInfo → List PortInfo × List PortInfo
  | [] => ([], [])
  | p :: rest =>
    let r := killLoop killOk rest
    if killOk p.pid then (p :: r.1, r.2) else (r.1, p :: r.2)

/-- `killPortByNumber(port, force)`.  The second component is the trace of
pids on which `killProcess` was invoked, in order. -/
def killPortByNumber (env : KPBEnv) (port : Nat) (force : Bool) :
    KillByPortResult × List Nat :=
  match env.detectRes with
  | .error e =>
    (⟨false, [], "Error killing port " ++ toString port ++ ": " ++ e⟩, [])
  | .ok ports =>
    let matching := ports.filter (fun p => p.port = port)
    if matching.isEmpty then
      (⟨false, [], "No process found using port " ++ toString port⟩, [])
    else
      let kf := killLoop env.killOk matching
      let trace := matching.map (fun p => p.pid)
      if kf.1.isEmpty then
        (⟨false, [], "Failed to kill processes on port " ++ toString port⟩,
          trace)
      else if !kf.2.isEmpty then
        (⟨true, kf.1,
          "Killed " ++ toString kf.1.length ++ " process(es) on port " ++
            toString port ++ ", but " ++ toString kf.2.length ++ " failed"⟩,
          trace)
      else
        (⟨true, kf.1,
          "Successfully killed " ++ toString kf.1.length ++
            " process(es) on port " ++ toString port⟩, trace)

/-! ## moveSelection (src/tui/dashboard.ts) -/

/-- `Dashboard.moveSelection(direction)` over a filtered, flattened port
list of length `len`; `idx` is `state.selectedIndex`. -/
def moveSelection (len : Nat) (idx : Int) (dir : Int) : Int :=
  if len = 0 then idx
  else
    let i := idx + dir
    if i < 0 then (len : Int) - 1
    else if i ≥ (len : Int) then 0
    else i

/-! ## Dashboard modal state machine
(src/tui/dashboard.ts, src/tui/dashboard-handlers.ts)

The projection of `DashboardState` onto the fields the keyboard handlers
mutate.  Selection indices, port lists and modal content strings are
omitted: no registered handler's modal-flag behaviour depends on them
(handlers needing a selected port receive that fact as event data). -/

inductive SortKey where
  | port
  | process
  | pid
deriving Repr, DecidableEq

structure DState where
  showHelp : Bool
  showConfirm : Bool
  showLogs : Bool
  showCommand : Bool
  showStats : Bool
  searching : Bool
  /-- whether `confirmAction` is non-null -/
  hasConfirmAction : Bool
  filter : String
  searchBuffer : String
  showDetails : Bool
  sortBy : SortKey
  isKilling : Bool
  killingPort : Option Nat

/-- Logical key events dispatched by the keyboard handler.  Handlers that
start by looking up the selected port carry `hasSel`, whether
`getSelectedPort()` returned non-null.  `enter` carries the stored
`confirmAction` closure as an arbitrary state transformer. -/
inductive KeyEvent where
  | up
  | down
  | enter (eff : DState → DState)
  | escape
  | backspace
  | slash
  | question
  | sKey
  | kKey (hasSel : Bool)
  | cKey (hasSel : Bool)
  | vKey (hasSel : Bool)
  | lKey (hasSel : Bool)
  | gKey (hasSel : Bool)
  | dKey
  | digit (d : Fin 10)
  | timer
  | other

/-- `isModalOpen` from dashboard-handlers.ts. -/
def isModalOpen (s : DState) : Bool :=
  s.showHelp || s.showConfirm || s.showLogs || s.showCommand ||
    s.showStats || s.searching

/-- Effect of the specific handler registered for the event's key
(`setupKeyboardHandlers` plus the stats handler), on the modelled fields.
The help toggle has no `isModalOpen` guard in the source. -/
def specificStep (s : DState) (e : KeyEvent) : DState :=
  match e with
  | .up => s
  | .down => s
  | .slash => if isModalOpen s then s else { s with searching := true }
  | .kKey hasSel =>
    -- handleKill: sets the killing flags, runs the kill lifecycle, and
    -- clears them in `finally`; modal flags are never touched
    if isModalOpen s then s
    else if hasSel then { s with isKilling := false, killingPort := none }
    else s
  | .cKey _ => s
  | .vKey hasSel =>
    if isModalOpen s then s
    else if hasSel then { s with showCommand := true } else s
  | .lKey hasSel =>
    if isModalOpen s then s
    else if hasSel then { s with showLogs := true } else s
  | .gKey _ => if isModalOpen s then s else s
  | .dKey =>
    if isModalOpen s then s else { s with showDetails := !s.showDetails }
  | .digit d =>
    if d.val = 1 then (if isModalOpen s then s else { s with sortBy := .port })
    else if d.val = 2 then
      (if isModalOpen s then s else { s with sortBy := .process })
    else if d.val = 3 then
      (if isModalOpen s then s else { s with sortBy := .pid })
    else s
  | .question => { s with showHelp := !s.showHelp }
  | .sKey =>
    if isModalOpen s ∧ s.showStats = false then s
    else if s.showStats then { s with showStats := false }
    else { s with showStats := true }
  | .escape =>
    if s.searching then { s with searching := false, filter := "" }
    else if s.showHelp then { s with showHelp := false }
    else if s.showConfirm then
      { s with showConfirm := false, hasConfirmAction := false }
    else if s.showLogs then { s with showLogs := false }
    else if s.showCommand then { s with showCommand := false }
    else if s.showStats then { s with showStats := false }
    else s
  | .enter eff =>
    if s.searching then { s with searching := false }
    else if s.showConfirm ∧ s.hasConfirmAction then
      eff { s with showConfirm := false }
    else s
  | .backspace => s
  | .timer => s
  | .other => s

/-- Effect of the wildcard handler registered in `Dashboard.setupKeyboard`
(search digit entry and backspace editing), which runs after the specific
handler for the same event. -/
def wildcardStep (s : DState) (e : KeyEvent) : DState :=
  match e with
  | .digit d =>
    if s.searching then
      let buf : String := ⟨s.searchBuffer.data ++ [Char.ofNat (48 + d.val)]⟩
      { s with searchBuffer := buf, filter := buf }
    else s
  | .backspace =>
    if s.searching then
      let buf : String := ⟨s.searchBuffer.data.dropLast⟩
      { s with searchBuffer := buf, filter := buf }
    else s
  | _ => s

/-- One dispatched key event: the specific handler, then the wildcard
handler. -/
def step (s : DState) (e : KeyEvent) : DState :=
  wildcardStep (specificStep s e) e

/-- The dashboard's initial state (the constructor of `Dashboard`). -/
def initState : DState :=
  { showHelp := false, showConfirm := false, showLogs := false
    showCommand := false, showStats := false, searching := false
    hasConfirmAction := false, filter := "", searchBuffer := ""
    showDetails := true, sortBy := .port, isKilling := false
    killingPort := none }

/-- State reached from the initial state by a sequence of key events. -/
def run (evs : List KeyEvent) : DState :=
  evs.foldl step initState

/-- Number of simultaneously active non-help modal states (the confirm,
logs, command and stats modals, plus search mode). -/
def modalCount (s : DState) : Nat :=
  s.showConfirm.toNat + s.showLogs.toNat + s.showCommand.toNat +
    s.showStats.toNat + s.searching.toNat

/-! ## Render-path selection (src/tui/dashboard.ts, render and
renderDelta)

The repaint decision and the set of terminal lines a delta pass touches,
as pure functions of the current and previous render snapshots. -/

/-- The per-row data `renderDelta` compares between frames. -/
structure RowData where
  pid : Nat
  port : Nat
  processName : String
  command : String
  lifetime : Option Nat
  type : Option String
deriving Repr, DecidableEq

/-- The fields captured in `previousRenderState` (and their current
values): the filtered rows, the selection, and the view parameters the
delta precondition compares. -/
structure RenderSnapshot where
  rows : List RowData
  selectedIndex : Nat
  filter : String
  sortBy : SortKey
  showDetails : Bool
deriving Repr, DecidableEq

/-- How a frame is painted: a modal full render, a full clear-and-redraw,
or a delta pass.  A delta pass always repaints the header (line 0);
`lines` is the set of port-row terminal lines repainted, `footer` whether
the detail footer is repainted, `toast` whether a toast is drawn. -/
inductive Paint where
  | modal
  | full
  | delta (lines : Finset Nat) (footer : Bool) (toast : Bool)
deriving DecidableEq

/-- `maxHeight` in `renderDelta`/`renderMain`: the first terminal line
past the port-row area. -/
def maxHeight (height : Nat) (showDetails : Bool) : Int :=
  (height : Int) - (if showDetails then 6 else 4)

/-- The changed-line set computed by `renderDelta`: the old and new
selection-indicator lines when the selection moved, plus every in-range
row index whose row data differs from the previous frame (row `i` is
terminal line `i + 2`). -/
def changedLines (prev cur : RenderSnapshot) (height : Nat) : Finset Nat :=
  let mh := maxHeight height cur.showDetails
  let selLines : Finset Nat :=
    if prev.selectedIndex ≠ cur.selectedIndex then
      {prev.selectedIndex + 2, cur.selectedIndex + 2}
    else ∅
  let rowLines : Finset Nat :=
    ((Finset.range (min prev.rows.length cur.rows.length)).filter
      (fun (i : Nat) => ((i : Int) + 2 < mh) ∧
        prev.rows[i]? ≠ cur.rows[i]?)).image (fun i => i + 2)
  selLines ∪ rowLines

/-- `renderDelta`: abort to a full repaint when the changed-line count
exceeds half of `maxHeight` (JS real division: `size > maxHeight / 2`);
otherwise paint the header, the changed lines that fall inside the
visible row area and have a current row, the detail footer when details
are on and a row is selected, and any toast. -/
def renderDeltaPaint (prev cur : RenderSnapshot) (height : Nat)
    (killMsg : Bool) : Paint :=
  let mh := maxHeight height cur.showDetails
  let ch := changedLines prev cur height
  if (ch.card : Int) * 2 > mh then Paint.full
  else
    Paint.delta
      (ch.filter (fun ln => 2 ≤ ln ∧ ((ln : Int) < mh) ∧
        ln - 2 < cur.rows.length))
      (cur.showDetails && !(cur.rows.length = 0))
      killMsg

/-- `Dashboard.render`: a modal forces a modal full render; otherwise the
delta path is taken only when there is no toast, a previous snapshot
exists, and it agrees with the current one on row count, filter text,
sort key and detail visibility. -/
def renderPaint (modalOpen killMsg : Bool) (prev : Option RenderSnapshot)
    (cur : RenderSnapshot) (height : Nat) : Paint :=
  if modalOpen then Paint.modal
  else
    match prev with
    | none => Paint.full
    | some p =>
      if killMsg then Paint.full
      else if p.rows.length = cur.rows.length ∧ p.filter = cur.filter ∧
          p.sortBy = cur.sortBy ∧ p.showDetails = cur.showDetails then
        renderDeltaPaint p cur height killMsg
      else Paint.full

/-! ## handleKill (src/tui/dashboard-handlers.ts)

The kill-action lifecycle, with the fallible steps' outcomes fixed by an
environment: which of the kill invocation, the gamification block, the
cache clearing, the post-kill delay and the refresh throw. -/

structure HKEnv where
  /-- the selected port's number, if `getSelectedPort()` is non-null -/
  selected : Option Nat
  killThrows : Bool
  /-- result of `killPort` when it completes -/
  killResult : Bool
  gamifThrows : Bool
  cacheClearThrows : Bool
  delayThrows : Bool
  refreshThrows : Bool
  catchRefreshThrows : Bool
deriving Repr, DecidableEq

/-- The dashboard-state fields `handleKill` touches, plus counters
tracing its cache clears, refreshes and renders. -/
structure HState where
  isKilling : Bool
  killingPort : Option Nat
  killMessageSet : Bool
  cacheCleared : Nat
  refreshes : Nat
  renders : Nat
deriving Repr, DecidableEq

/-- The body of `handleKill`'s `try` block (steps 2–6 of the kill
lifecycle).  Returns the state at completion or at the point of a throw,
plus whether it threw; mutations made before a throw persist. -/
def tryKillBody (env : HKEnv) (s : HState) : HState × Bool :=
  if env.killThrows then (s, true)
  else if env.gamifThrows then (s, true)
  else
    -- both kill outcomes set a message and render immediately
    let sA := { s with killMessageSet := true, renders := s.renders + 1 }
    if env.cacheClearThrows then (sA, true)
    else
      let sB := { sA with cacheCleared := sA.cacheCleared + 1 }
      if env.delayThrows then (sB, true)
      else if env.refreshThrows then (sB, true)
      else
        let sC := { sB with refreshes := sB.refreshes + 1 }
        ({ sC with renders := sC.renders + 1 }, false)

/-- The `catch` block: clear caches, refresh (which may itself throw) and
render. -/
def catchKillBody (env : HKEnv) (s : HState) : HState :=
  let sA := { s with cacheCleared := s.cacheCleared + 1 }
  if env.catchRefreshThrows then sA
  else { sA with refreshes := sA.refreshes + 1, renders := sA.renders + 1 }

/-- `handleKill`: return early with no selection; otherwise set the
killing flags and render (step 1), run the try block, on a throw run the
catch block, and in `finally` (step 7) clear the killing flags and render
again. -/
def handleKill (env : HKEnv) (s : HState) : HState :=
  match env.selected with
  | none => s
  | some port =>
    let s1 := { s with isKilling := true
                       killingPort := some port
                       renders := s.renders + 1 }
    let r := tryKillBody env s1
    let s3 := if r.2 then catchKillBody env r.1 else r.1
    { s3 with isKilling := false
              killingPort := none
              renders := s3.renders + 1 }

/-! ## Concrete spawn environments used to witness the kill theorems -/

/-- Environment in which the graceful termination request fails to submit
(exit code 1). -/
def envTermFails : KillEnv :=
  ⟨Except.ok ⟨0, "", ""⟩, Except.ok ⟨1, "", "kill: not permitted"⟩,
    Except.ok ⟨0, "", ""⟩, Except.ok ⟨0, "", ""⟩⟩

/-- Environment in which the graceful request succeeds and the liveness
check then shows the process gone (`ps` exits 1, `tasklist` prints
nothing). -/
def envProcessGone : KillEnv :=
  ⟨Except.ok ⟨0, "", ""⟩, Except.ok ⟨0, "", ""⟩, Except.ok ⟨1, "", ""⟩,
    Except.ok ⟨0, "", ""⟩⟩

/-- Environment in which the process survives the wait (liveness check
exits 0 with output) and the forceful escalation succeeds. -/
def envStillAlive : KillEnv :=
  ⟨Except.ok ⟨0, "", ""⟩, Except.ok ⟨0, "", ""⟩,
    Except.ok ⟨0, "node 12345 running", ""⟩, Except.ok ⟨0, "", ""⟩⟩

end Wtfport

namespace Wtfport

/-! ## Basic cache lemma -/

theorem cacheDelete_miss (pid : Nat) (c : Cache) :
    cacheHas pid (cacheDelete pid c) = false := by
  simp [cacheHas, cacheDelete, List.mem_filter]

/-! ## Claim C1: cache invalidation after killProcess -/

/-- C1 (counterexample).  The claim says that after `killProcess(pid,
force)` completes with ANY outcome the Process Metadata Cache entry for
that pid has been deleted.  Concretely false: when the graceful `kill
-TERM` submission fails (exit code 1), `killProcess(7, false)` returns
false without touching the cache, so a subsequent lookup for pid 7 still
hits. -/
theorem killProcess_cache_retained_on_plain_failure :
    (unixKillProcess ⟨Except.ok ⟨0, "", ""⟩, Except.ok ⟨1, "", "kill: not permitted"⟩,
        Except.ok ⟨0, "", ""⟩, Except.ok ⟨0, "", ""⟩⟩ [7] 7 false).result = false ∧
    cacheHas 7 (unixKillProcess ⟨Except.ok ⟨0, "", ""⟩,
        Except.ok ⟨1, "", "kill: not permitted"⟩, Except.ok ⟨0, "", ""⟩,
        Except.ok ⟨0, "", ""⟩⟩ [7] 7 false).cache = true := by
  constructor <;> rfl

/-- C1 (amended).  For every pid, force flag, initial cache and spawn
environment, both adapters' `killProcess` delete the Process Metadata
Cache entry exactly when the call returns true or an internal error was
caught; a plain false return (graceful submission failed, or the forceful
request exited non-zero) leaves the cache unchanged, so the entry is
retained. -/
theorem killProcess_cache_invalidation (env : KillEnv) (c : Cache) (pid : Nat)
    (force : Bool) :
    (unixKillProcess env c pid force).cache =
      (if (unixKillProcess env c pid force).result = true ∨
          killErrPath unixAlive env force = true then cacheDelete pid c else c) ∧
    (windowsKillProcess env c pid force).cache =
      (if (windowsKillProcess env c pid force).result = true ∨
          killErrPath windowsAlive env force = true then cacheDelete pid c else c) := by
  obtain ⟨fr, tr, cr, er⟩ := env
  constructor <;>
  · cases force <;>
      simp only [unixKillProcess, windowsKillProcess, killErrPath, unixAlive,
        windowsAlive] <;>
      rcases fr with _ | fp <;> rcases tr with _ | tp <;>
      rcases cr with _ | cp <;> rcases er with _ | ep <;>
      simp_all <;> split_ifs <;> simp_all

/-! ## Claim C2: modal mutual exclusion -/

theorem step_preserves_modalInv (s : DState) (e : KeyEvent)
    (h1 : modalCount s ≤ 1) (h2 : s.hasConfirmAction = false) :
    modalCount (step s e) ≤ 1 ∧ (step s e).hasConfirmAction = false := by
  cases e <;>
    simp only [step, specificStep, wildcardStep, isModalOpen, modalCount] at * <;>
    (try split_ifs) <;> simp_all <;> try omega

/-- C2 (counterexample).  The claim says at most one of the modal flags
and the search-mode flag is true in every reachable state, and that a key
opening a modal is accepted only when no other such state is active
(excepting only Escape and the stats key).  False: the help toggle has no
guard, so pressing the stats key and then the help key reaches a state
with both the stats modal and the help modal open. -/
theorem dashboard_two_modals_reachable :
    (run [KeyEvent.sKey, KeyEvent.question]).showStats = true ∧
    (run [KeyEvent.sKey, KeyEvent.question]).showHelp = true := by
  constructor <;> rfl

/-- C2 (amended).  In every state reachable from the initial state by key
events and timer actions, at most one of the confirm, logs, command and
stats modals and the search mode is active; the help flag alone may
additionally be on, because the help toggle is unguarded.  Keys opening
search, the command modal or the logs modal are accepted only when no
modal state is active, and the stats key is ignored while another
non-stats state is active. -/
theorem dashboard_modal_invariant :
    (∀ evs : List KeyEvent, modalCount (run evs) ≤ 1) ∧
    (∀ s : DState, isModalOpen s = true →
      step s KeyEvent.slash = s ∧
      (∀ b, step s (KeyEvent.vKey b) = s) ∧
      (∀ b, step s (KeyEvent.lKey b) = s) ∧
      (s.showStats = false → step s KeyEvent.sKey = s)) := by
  constructor
  · intro evs
    suffices h : modalCount (run evs) ≤ 1 ∧ (run evs).hasConfirmAction = false by
      exact h.1
    rw [run]
    induction evs using List.reverseRecOn with
    | nil => exact ⟨by decide, rfl⟩
    | append_singleton l e ih =>
      rw [List.foldl_append, List.foldl_cons, List.foldl_nil]
      exact step_preserves_modalInv _ e ih.1 ih.2
  · intro s hmodal
    refine ⟨?_, ?_, ?_, ?_⟩
    · simp [step, specificStep, wildcardStep, hmodal]
    · intro b
      simp [step, specificStep, wildcardStep, hmodal]
    · intro b
      simp [step, specificStep, wildcardStep, hmodal]
    · intro hstats
      simp [step, specificStep, wildcardStep, hmodal, hstats]

/-- C2 (witness): the invariant after a concrete event sequence, and the
guard facts at a concrete state with the logs modal open. -/
theorem dashboard_modal_invariant_witness :
    modalCount (run [KeyEvent.slash, KeyEvent.digit 3, KeyEvent.escape,
      KeyEvent.lKey true]) ≤ 1 ∧
    step { initState with showLogs := true } KeyEvent.slash =
      { initState with showLogs := true } := by
  refine ⟨dashboard_modal_invariant.1 _, ?_⟩
  exact (dashboard_modal_invariant.2 { initState with showLogs := true }
    (by decide)).1

/-! ## Claim C3: non-forced kill sequencing -/

/-- C3.  Non-forced `killProcess` on both adapters: a failed graceful
submission (non-zero exit) returns false immediately — no wait, no
forceful signal.  A successful submission waits; if the liveness check
shows the process gone the call returns true with zero forceful signals;
if still alive it issues exactly one forceful request and returns true iff
that request exits zero. -/
theorem killProcess_graceful_sequencing (env : KillEnv) (c : Cache) (pid : Nat) :
    (∀ p, env.termRes = Except.ok p → p.exitCode ≠ 0 →
      unixKillProcess env c pid false = ⟨false, c, 0, false⟩ ∧
      windowsKillProcess env c pid false = ⟨false, c, 0, false⟩) ∧
    (∀ p chk, env.termRes = Except.ok p → p.exitCode = 0 →
        env.checkRes = Except.ok chk →
      (unixAlive chk = false →
        (unixKillProcess env c pid false).result = true ∧
        (unixKillProcess env c pid false).forceSignals = 0 ∧
        (unixKillProcess env c pid false).waited = true) ∧
      (windowsAlive chk = false →
        (windowsKillProcess env c pid false).result = true ∧
        (windowsKillProcess env c pid false).forceSignals = 0 ∧
        (windowsKillProcess env c pid false).waited = true) ∧
      (∀ f, env.escRes = Except.ok f →
        (unixAlive chk = true →
          (unixKillProcess env c pid false).forceSignals = 1 ∧
          (unixKillProcess env c pid false).waited = true ∧
          ((unixKillProcess env c pid false).result = true ↔ f.exitCode = 0)) ∧
        (windowsAlive chk = true →
          (windowsKillProcess env c pid false).forceSignals = 1 ∧
          (windowsKillProcess env c pid false).waited = true ∧
          ((windowsKillProcess env c pid false).result = true ↔ f.exitCode = 0)))) := by
  obtain ⟨fr, tr, cr, er⟩ := env
  refine ⟨?_, ?_⟩
  · rintro p rfl hne
    constructor <;> simp [unixKillProcess, windowsKillProcess, hne]
  · rintro p chk rfl hzero hcr
    simp only at hcr
    subst hcr
    refine ⟨?_, ?_, ?_⟩
    · intro hgone
      simp [unixKillProcess, hzero, unixAlive] at hgone ⊢
      simp [hgone]
    · intro hgone
      simp [windowsAlive] at hgone
      have hcond : ¬(chk.exitCode = 0 ∧ ¬chk.stdout.trim = "") := by
        rintro ⟨h1, h2⟩
        exact h2 (hgone h1)
      simp [windowsKillProcess, hzero, hcond]
    · rintro f rfl
      constructor
      · intro halive
        simp [unixAlive] at halive
        simp [unixKillProcess, hzero, halive]
      · intro halive
        simp [windowsAlive] at halive
        simp [windowsKillProcess, hzero, halive]

/-- C3 (witness): the sequencing theorem applied in three concrete
environments — failed graceful submission, process gone after the wait,
and process surviving the wait with a successful escalation. -/
theorem killProcess_graceful_sequencing_witness :
    unixKillProcess envTermFails [] 5 false = ⟨false, [], 0, false⟩ ∧
    (unixKillProcess envProcessGone [] 5 false).result = true ∧
    (unixKillProcess envProcessGone [] 5 false).forceSignals = 0 ∧
    (unixKillProcess envStillAlive [] 5 false).forceSignals = 1 ∧
    ((unixKillProcess envStillAlive [] 5 false).result = true ↔
      (0 : Int) = 0) := by
  refine ⟨?_, ?_, ?_, ?_, ?_⟩
  · exact ((killProcess_graceful_sequencing envTermFails [] 5).1
      ⟨1, "", "kill: not permitted"⟩ rfl (by decide)).1
  · exact (((killProcess_graceful_sequencing envProcessGone [] 5).2
      ⟨0, "", ""⟩ ⟨1, "", ""⟩ rfl rfl rfl).1 (by decide)).1
  · exact (((killProcess_graceful_sequencing envProcessGone [] 5).2
      ⟨0, "", ""⟩ ⟨1, "", ""⟩ rfl rfl rfl).1 (by decide)).2.1
  · exact (((((killProcess_graceful_sequencing envStillAlive [] 5).2
      ⟨0, "", ""⟩ ⟨0, "node 12345 running", ""⟩ rfl rfl rfl).2.2
      ⟨0, "", ""⟩ rfl).1 (by decide))).1
  · exact (((((killProcess_graceful_sequencing envStillAlive [] 5).2
      ⟨0, "", ""⟩ ⟨0, "node 12345 running", ""⟩ rfl rfl rfl).2.2
      ⟨0, "", ""⟩ rfl).1 (by decide))).2.2

/-! ## Claim C4: (port, pid) uniqueness per cycle -/

theorem mem_dedupByKey_not_seen (l : List UPortInfo) :
    ∀ (seen : List String), ∀ q ∈ dedupByKey seen l, portPidKey q ∉ seen := by
  induction l with
  | nil => intro seen q hq; simp [dedupByKey] at hq
  | cons p rest ih =>
    intro seen q hq
    by_cases h : portPidKey p ∈ seen
    · rw [dedupByKey, if_pos h] at hq
      exact ih seen q hq
    · rw [dedupByKey, if_neg h] at hq
      rcases List.mem_cons.mp hq with rfl | hq
      · exact h
      · have := ih (portPidKey p :: seen) q hq
        intro hmem
        exact this (List.mem_cons_of_mem _ hmem)

theorem dedupByKey_pairwise (l : List UPortInfo) :
    ∀ seen : List String,
      List.Pairwise (fun p q => portPidKey p ≠ portPidKey q)
        (dedupByKey seen l) := by
  induction l with
  | nil => intro seen; simp [dedupByKey]
  | cons p rest ih =>
    intro seen
    by_cases h : portPidKey p ∈ seen
    · rw [dedupByKey, if_pos h]
      exact ih seen
    · rw [dedupByKey, if_neg h]
      refine List.Pairwise.cons ?_ (ih (portPidKey p :: seen))
      intro q hq heq
      have := mem_dedupByKey_not_seen rest (portPidKey p :: seen) q hq
      exact this (heq ▸ List.mem_cons_self _ _)

theorem enrichOne_preserves_port_pid
    (meta : Option Int → Option ProcMeta) (p : UPortInfo) :
    (enrichOne meta p).port = p.port ∧ (enrichOne meta p).pid = p.pid := by
  unfold enrichOne
  cases meta p.pid <;> exact ⟨rfl, rfl⟩

/-- C4 (counterexample).  The claim asserts uniqueness per (port, pid) for
both parsers, and that two lines with the same (port, pid) collapse into a
single PortInfo.  The Unix parser performs no deduplication: two lsof
lines for the same process listening on the same port (its IPv4 and IPv6
sockets) yield two entries with the same (port, pid). -/
theorem lsof_duplicate_port_pid_not_collapsed :
    (unixDetectPorts
        ("node 123 alice 22u IPv4 0x1 0t0 TCP *:3000 (LISTEN)\n" ++
         "node 123 alice 23u IPv6 0x2 0t0 TCP *:3000 (LISTEN)")
        (fun _ => none)).map (fun p => (p.port, p.pid)) =
      [(3000, some 123), (3000, some 123)] := by
  rfl

/-- C4 (amended).  A Windows discovery cycle's PortInfo list contains at
most one entry per (port, pid) pair — the netstat parser deduplicates by
the `port-pid` key and enrichment preserves port and pid.  The Unix
parser performs no such deduplication, and two lsof lines reporting the
same (port, pid) yield two entries. -/
theorem netstat_cycle_unique_port_pid (output : String)
    (meta : Option Int → Option ProcMeta) :
    List.Pairwise (fun p q => ¬(p.port = q.port ∧ p.pid = q.pid))
      (windowsDetectPorts output meta) := by
  rw [windowsDetectPorts, applyBatchInfo, List.pairwise_map]
  have hp := dedupByKey_pairwise
    ((toolOutputLines output).filterMap parseNetstatLine) []
  rw [parseNetstatOutput]
  refine hp.imp ?_
  intro a b hne hcontra
  obtain ⟨hport, hpid⟩ := hcontra
  have ha := enrichOne_preserves_port_pid meta a
  have hb := enrichOne_preserves_port_pid meta b
  apply hne
  unfold portPidKey
  rw [ha.1, hb.1] at hport
  rw [ha.2, hb.2] at hpid
  rw [hport, hpid]

/-! ## Claim C5: delta versus full repaint -/

/-- C5 (counterexample).  The claim says a selection-only change is
painted by a delta repaint touching exactly the old-selection line, the
new-selection line and the header.  With detail visibility on (its
initial value), the delta pass also repaints the detail footer: at this
concrete frame the paint is a delta on lines {2, 3} with the footer
repainted as well. -/
theorem delta_repaint_touches_footer :
    renderPaint false false
      (some ⟨[⟨100, 80, "nginx", "nginx -g daemon", none, none⟩,
        ⟨200, 3000, "node", "node app.js", some 5, none⟩], 0, "",
        SortKey.port, true⟩)
      ⟨[⟨100, 80, "nginx", "nginx -g daemon", none, none⟩,
        ⟨200, 3000, "node", "node app.js", some 5, none⟩], 1, "",
        SortKey.port, true⟩ 24 =
      Paint.delta {2, 3} true false := by
  decide

theorem changedLines_eq (prev cur : RenderSnapshot) (height : Nat) :
    changedLines prev cur height =
      (if prev.selectedIndex ≠ cur.selectedIndex then
        ({prev.selectedIndex + 2, cur.selectedIndex + 2} : Finset Nat)
      else ∅) ∪
      ((Finset.range (min prev.rows.length cur.rows.length)).filter
        (fun (i : Nat) =>
          ((i : Int) + 2 < maxHeight height cur.showDetails) ∧
          prev.rows[i]? ≠ cur.rows[i]?)).image (fun i => i + 2) := rfl

theorem renderDeltaPaint_eq (prev cur : RenderSnapshot) (height : Nat)
    (killMsg : Bool) :
    renderDeltaPaint prev cur height killMsg =
      if ((changedLines prev cur height).card : Int) * 2 >
          maxHeight height cur.showDetails then Paint.full
      else
        Paint.delta
          ((changedLines prev cur height).filter (fun ln => 2 ≤ ln ∧
            ((ln : Int) < maxHeight height cur.showDetails) ∧
            ln - 2 < cur.rows.length))
          (cur.showDetails && !(cur.rows.length = 0)) killMsg := rfl

theorem renderPaint_plain_eq (p cur : RenderSnapshot) (height : Nat) :
    renderPaint false false (some p) cur height =
      (if p.rows.length = cur.rows.length ∧ p.filter = cur.filter ∧
          p.sortBy = cur.sortBy ∧ p.showDetails = cur.showDetails then
        renderDeltaPaint p cur height false
      else Paint.full) := rfl

theorem rowLines_empty_of_eq_rows (p cur : RenderSnapshot) (height : Nat)
    (h : p.rows = cur.rows) :
    ((Finset.range (min p.rows.length cur.rows.length)).filter
      (fun (i : Nat) => ((i : Int) + 2 < maxHeight height cur.showDetails) ∧
        p.rows[i]? ≠ cur.rows[i]?)).image (fun i => i + 2) = ∅ := by
  rw [Finset.filter_false_of_mem, Finset.image_empty]
  intro i _
  rw [h]
  simp

/-- C5 (amended).  With no modal and no toast: a frame in which only the
selected row changed (same rows, filter, sort key and detail flag, both
selection lines in the visible row area, at least four lines of row
budget) is painted by a delta repaint touching exactly the old-selection
line, the new-selection line and the header — plus the detail footer
exactly when detail visibility is on; a frame whose sort key or filter
text changed is painted by a full repaint; and a delta pass whose
changed-line count exceeds half the row budget falls back to a full
repaint. -/
theorem renderPaint_delta_policy (p cur : RenderSnapshot) (height : Nat) :
    (p.rows = cur.rows → p.filter = cur.filter → p.sortBy = cur.sortBy →
     p.showDetails = cur.showDetails →
     p.selectedIndex ≠ cur.selectedIndex →
     ((p.selectedIndex : Int) + 2 < maxHeight height cur.showDetails) →
     ((cur.selectedIndex : Int) + 2 < maxHeight height cur.showDetails) →
     p.selectedIndex < cur.rows.length →
     cur.selectedIndex < cur.rows.length →
     4 ≤ maxHeight height cur.showDetails →
     renderPaint false false (some p) cur height =
       Paint.delta {p.selectedIndex + 2, cur.selectedIndex + 2}
         cur.showDetails false) ∧
    ((p.filter ≠ cur.filter ∨ p.sortBy ≠ cur.sortBy) →
     renderPaint false false (some p) cur height = Paint.full) ∧
    (p.rows.length = cur.rows.length → p.filter = cur.filter →
     p.sortBy = cur.sortBy → p.showDetails = cur.showDetails →
     ((changedLines p cur height).card : Int) * 2 >
       maxHeight height cur.showDetails →
     renderPaint false false (some p) cur height = Paint.full) := by
  refine ⟨?_, ?_, ?_⟩
  · intro hrows hfil hsort hdet hsel hpin hcin hplen hclen hmh
    have hcond : p.rows.length = cur.rows.length ∧ p.filter = cur.filter ∧
        p.sortBy = cur.sortBy ∧ p.showDetails = cur.showDetails :=
      ⟨by rw [hrows], hfil, hsort, hdet⟩
    have hch : changedLines p cur height =
        {p.selectedIndex + 2, cur.selectedIndex + 2} := by
      rw [changedLines_eq, if_pos hsel,
        rowLines_empty_of_eq_rows p cur height hrows, Finset.union_empty]
    have hcard : (changedLines p cur height).card = 2 := by
      rw [hch]
      exact Finset.card_pair (by omega)
    rw [renderPaint_plain_eq, if_pos hcond, renderDeltaPaint_eq, hcard,
      if_neg (by omega), hch]
    have hfilter :
        Finset.filter (fun (ln : Nat) => 2 ≤ ln ∧
            ((ln : Int) < maxHeight height cur.showDetails) ∧
            ln - 2 < cur.rows.length)
          ({p.selectedIndex + 2, cur.selectedIndex + 2} : Finset Nat) =
          {p.selectedIndex + 2, cur.selectedIndex + 2} := by
      rw [Finset.filter_true_of_mem]
      intro ln hln
      rcases Finset.mem_insert.mp hln with rfl | hln
      · refine ⟨by omega, ?_, by omega⟩
        push_cast
        omega
      · rcases Finset.mem_singleton.mp hln with rfl
        refine ⟨by omega, ?_, by omega⟩
        push_cast
        omega
    rw [hfilter]
    have hlen : ¬(cur.rows.length = 0) := by omega
    simp [hlen]
  · intro hdisj
    rw [renderPaint_plain_eq, if_neg]
    rintro ⟨-, h2, h3, -⟩
    rcases hdisj with h | h
    · exact h h2
    · exact h h3
  · intro hlen hfil hsort hdet hcard
    rw [renderPaint_plain_eq, if_pos ⟨hlen, hfil, hsort, hdet⟩,
      renderDeltaPaint_eq, if_pos hcard]

/-- C5 (witness): the three policy conjuncts at concrete frames — a
selection-only move (delta on the two selection lines, footer on), a
filter change (full repaint), and a frame with many changed rows on a
short screen (abort to full). -/
theorem renderPaint_delta_policy_witness :
    renderPaint false false
      (some ⟨[⟨1, 80, "a", "a", none, none⟩, ⟨2, 81, "b", "b", none, none⟩,
        ⟨3, 82, "c", "c", none, none⟩], 0, "", SortKey.port, true⟩)
      ⟨[⟨1, 80, "a", "a", none, none⟩, ⟨2, 81, "b", "b", none, none⟩,
        ⟨3, 82, "c", "c", none, none⟩], 2, "", SortKey.port, true⟩ 30 =
      Paint.delta {2, 4} true false ∧
    renderPaint false false
      (some ⟨[], 0, "30", SortKey.port, true⟩)
      ⟨[], 0, "300", SortKey.port, true⟩ 30 = Paint.full ∧
    renderPaint false false
      (some ⟨[⟨1, 80, "a", "a", none, none⟩, ⟨2, 81, "b", "b", none, none⟩,
        ⟨3, 82, "c", "c", none, none⟩, ⟨4, 83, "d", "d", none, none⟩],
        0, "", SortKey.port, false⟩)
      ⟨[⟨9, 90, "w", "w", none, none⟩, ⟨8, 91, "x", "x", none, none⟩,
        ⟨7, 92, "y", "y", none, none⟩, ⟨6, 93, "z", "z", none, none⟩],
        0, "", SortKey.port, false⟩ 10 = Paint.full := by
  refine ⟨?_, ?_, ?_⟩
  · exact (renderPaint_delta_policy _ _ 30).1 rfl rfl rfl rfl (by decide)
      (by decide) (by decide) (by decide) (by decide) (by decide)
  · exact (renderPaint_delta_policy _ _ 30).2.1 (Or.inl (by decide))
  · exact (renderPaint_delta_policy _ _ 10).2.2 rfl rfl rfl rfl (by decide)

/-! ## Claim C6: killByPort outcome reporting -/

theorem killLoop_eq_filter (ko : Nat → Bool) (l : List PortInfo) :
    killLoop ko l =
      (l.filter (fun p => ko p.pid), l.filter (fun p => !ko p.pid)) := by
  induction l with
  | nil => rfl
  | cons p rest ih =>
    by_cases h : ko p.pid <;> simp [killLoop, ih, h]

theorem append_ne_of_ne_head (c d : Char) (a b x y : String) (hne : c ≠ d)
    (ha : a.data.head? = some c) (hb : b.data.head? = some d) :
    a ++ x ≠ b ++ y := by
  intro he
  have hd := congrArg String.data he
  rw [String.data_append, String.data_append] at hd
  rcases ha' : a.data with _ | ⟨c', t⟩
  · rw [ha'] at ha
    simp at ha
  · rw [ha'] at ha hd
    simp only [List.head?_cons, Option.some.injEq] at ha
    rcases hb' : b.data with _ | ⟨d', u⟩
    · rw [hb'] at hb
      simp at hb
    · rw [hb'] at hb hd
      simp only [List.head?_cons, Option.some.injEq] at hb
      subst ha
      subst hb
      simp only [List.cons_append, List.cons.injEq] at hd
      exact hne hd.1

/-- C6.  With the detector succeeding, `killByPort(port, force)` invokes
`killProcess` on exactly the pids of the processes bound to `port` (in
order); with no process on the port, or with every kill attempt failing,
it returns success=false with an empty killed list; and with some but not
all attempts succeeding it returns success=true, the killed list, and a
partial-failure message distinct from the total-failure and all-success
messages. -/
theorem killPortByNumber_outcomes (env : KPBEnv) (port : Nat) (force : Bool)
    (ports : List PortInfo) (hdet : env.detectRes = Except.ok ports) :
    ((killPortByNumber env port force).2 =
      (ports.filter (fun p => p.port = port)).map (fun p => p.pid)) ∧
    (ports.filter (fun p => p.port = port) = [] →
      killPortByNumber env port force =
        (⟨false, [], "No process found using port " ++ toString port⟩, [])) ∧
    ((∀ p ∈ ports.filter (fun p => p.port = port), env.killOk p.pid = false) →
      (killPortByNumber env port force).1.success = false ∧
      (killPortByNumber env port force).1.killed = []) ∧
    ((∃ p ∈ ports.filter (fun p => p.port = port), env.killOk p.pid = true) →
     (∃ q ∈ ports.filter (fun p => p.port = port), env.killOk q.pid = false) →
      (killPortByNumber env port force).1.success = true ∧
      (killPortByNumber env port force).1.killed =
        (ports.filter (fun p => p.port = port)).filter
          (fun p => env.killOk p.pid) ∧
      (killPortByNumber env port force).1.message =
        "Killed " ++
          toString (((ports.filter (fun p => p.port = port)).filter
            (fun p => env.killOk p.pid)).length) ++
          " process(es) on port " ++ toString port ++ ", but " ++
          toString (((ports.filter (fun p => p.port = port)).filter
            (fun p => !env.killOk p.pid)).length) ++ " failed" ∧
      (∀ z w : String,
        (killPortByNumber env port force).1.message ≠
          "Successfully killed " ++ z ∧
        (killPortByNumber env port force).1.message ≠
          "Failed to kill processes on port " ++ w)) := by
  obtain ⟨dr, ko⟩ := env
  simp only at hdet
  subst hdet
  refine ⟨?_, ?_, ?_, ?_⟩
  · simp only [killPortByNumber, killLoop_eq_filter]
    split_ifs <;> simp_all
  · intro hempty
    simp [killPortByNumber, hempty]
  · intro hall
    have hfil : (ports.filter (fun p => p.port = port)).filter
        (fun p => ko p.pid) = [] := by
      rw [List.filter_eq_nil_iff]
      intro a ha
      have := hall a ha
      simp only at this
      simp [this]
    by_cases hempty : ports.filter (fun p => p.port = port) = []
    · simp [killPortByNumber, hempty]
    · simp [killPortByNumber, killLoop_eq_filter, hempty, hfil,
        List.isEmpty_iff]
  · rintro ⟨p, hp, hpok⟩ ⟨q, hq, hqok⟩
    replace hpok : ko p.pid = true := hpok
    replace hqok : ko q.pid = false := hqok
    have hempty : ¬(ports.filter (fun r => r.port = port) = []) := by
      intro h
      rw [h] at hp
      exact absurd hp (List.not_mem_nil p)
    have hkilled : ¬((ports.filter (fun r => r.port = port)).filter
        (fun r => ko r.pid) = []) := by
      intro h
      have : p ∈ (ports.filter (fun r => r.port = port)).filter
          (fun r => ko r.pid) := by
        rw [List.mem_filter]
        exact ⟨hp, hpok⟩
      rw [h] at this
      exact absurd this (List.not_mem_nil p)
    have hfailed : ¬((ports.filter (fun r => r.port = port)).filter
        (fun r => !ko r.pid) = []) := by
      intro h
      have : q ∈ (ports.filter (fun r => r.port = port)).filter
          (fun r => !ko r.pid) := by
        rw [List.mem_filter]
        refine ⟨hq, ?_⟩
        rw [Bool.not_eq_true']
        exact hqok
      rw [h] at this
      exact absurd this (List.not_mem_nil q)
    have e1 : (ports.filter (fun r => r.port = port)).isEmpty = false :=
      List.isEmpty_eq_false.mpr hempty
    have e2 : ((ports.filter (fun r => r.port = port)).filter
        (fun r => ko r.pid)).isEmpty = false :=
      List.isEmpty_eq_false.mpr hkilled
    have e3 : ((ports.filter (fun r => r.port = port)).filter
        (fun r => !ko r.pid)).isEmpty = false :=
      List.isEmpty_eq_false.mpr hfailed
    have hrun : killPortByNumber ⟨Except.ok ports, ko⟩ port force =
        (⟨true,
          (ports.filter (fun r => r.port = port)).filter (fun r => ko r.pid),
          "Killed " ++
            toString (((ports.filter (fun r => r.port = port)).filter
              (fun r => ko r.pid)).length) ++
            " process(es) on port " ++ toString port ++ ", but " ++
            toString (((ports.filter (fun r => r.port = port)).filter
              (fun r => !ko r.pid)).length) ++ " failed"⟩,
          (ports.filter (fun r => r.port = port)).map (fun r => r.pid)) := by
      simp only [killPortByNumber, killLoop_eq_filter, e1, e2, e3,
        Bool.false_eq_true, if_false, Bool.not_false, if_true]
    refine ⟨by rw [hrun], by rw [hrun], by rw [hrun], ?_⟩
    intro z w
    rw [hrun]
    constructor
    · exact append_ne_of_ne_head 'K' 'S' _ _ _ _ (by decide) rfl rfl
    · exact append_ne_of_ne_head 'K' 'F' _ _ _ _ (by decide) rfl rfl

/-- C6 (witness): a concrete partial-failure run — two processes on port
3000, pid 10 killable, pid 20 not. -/
theorem killPortByNumber_outcomes_witness :
    (killPortByNumber
        ⟨Except.ok [⟨3000, Protocol.tcp, 10, "node", "node a.js", none, "u",
            none, none⟩,
          ⟨3000, Protocol.tcp, 20, "node", "node b.js", none, "u", none,
            none⟩], fun pid => pid = 10⟩ 3000 false).1.success = true ∧
    (killPortByNumber
        ⟨Except.ok [⟨3000, Protocol.tcp, 10, "node", "node a.js", none, "u",
            none, none⟩,
          ⟨3000, Protocol.tcp, 20, "node", "node b.js", none, "u", none,
            none⟩], fun pid => pid = 10⟩ 3000 false).2 = [10, 20] := by
  constructor
  · exact ((killPortByNumber_outcomes _ 3000 false _ rfl).2.2.2
      ⟨⟨3000, Protocol.tcp, 10, "node", "node a.js", none, "u", none, none⟩,
        by decide, by decide⟩
      ⟨⟨3000, Protocol.tcp, 20, "node", "node b.js", none, "u", none, none⟩,
        by decide, by decide⟩).1
  · have h := (killPortByNumber_outcomes
      ⟨Except.ok [⟨3000, Protocol.tcp, 10, "node", "node a.js", none, "u",
          none, none⟩,
        ⟨3000, Protocol.tcp, 20, "node", "node b.js", none, "u", none,
          none⟩], fun pid => pid = 10⟩ 3000 false _ rfl).1
    rw [h]
    decide

/-! ## Claim C7: etime parsing -/

theorem findSuffixMatch_isSuffix (fm : List Char → Bool) (l m : List Char)
    (h : findSuffixMatch fm l = some m) : m <:+ l := by
  induction l with
  | nil =>
    rw [findSuffixMatch] at h
    split at h
    · cases h
      exact List.suffix_refl []
    · cases h
  | cons c t ih =>
    rw [findSuffixMatch] at h
    split at h
    · cases h
      exact List.suffix_refl (c :: t)
    · exact (ih h).trans (List.suffix_cons c t)

/-- C7.  Etime parsing: the four concrete conversions
(`"01:02:03" → 3723`, `"2-03:04:05" → 183845`, `"05:06" → 306`,
`"00:00" →` none); the patterns are tried most-specific first
(`dd-hh:mm:ss` wins over its `hh:mm:ss`/`mm:ss` sub-suffixes); the
patterns are anchored to the end of the line, so a time-like substring in
the middle of the command text is not matched and any matched etime text
is a suffix of the line; and a parse never yields a zero lifetime. -/
theorem parseEtime_spec :
    parseEtime "01:02:03" = some 3723 ∧
    parseEtime "2-03:04:05" = some 183845 ∧
    parseEtime "05:06" = some 306 ∧
    parseEtime "00:00" = none ∧
    etimeMatch "node server.js 2-03:04:05" = some "2-03:04:05" ∧
    etimeMatch "ps 01:02:03 trailing" = none ∧
    (∀ (line m : String), etimeMatch line = some m → m.data <:+ line.data) ∧
    (∀ (s : String) (n : Nat), parseEtime s = some n → 0 < n) := by
  refine ⟨by rfl, by rfl, by rfl, by rfl, by rfl, by rfl, ?_, ?_⟩
  · intro line m h
    rw [etimeMatch] at h
    cases h1 : findSuffixMatch fmDDHHMMSS line.data with
    | some m1 =>
      rw [h1] at h
      cases h
      exact findSuffixMatch_isSuffix _ _ _ h1
    | none =>
      rw [h1] at h
      cases h2 : findSuffixMatch fmHHMMSS line.data with
      | some m2 =>
        rw [h2] at h
        cases h
        exact findSuffixMatch_isSuffix _ _ _ h2
      | none =>
        rw [h2] at h
        cases h3 : findSuffixMatch fmMMSS line.data with
        | some m3 =>
          rw [h3] at h
          cases h
          exact findSuffixMatch_isSuffix _ _ _ h3
        | none =>
          rw [h3] at h
          cases h
  · intro s n h
    rw [parseEtime] at h
    have key : ∀ t : Nat, (if t > 0 then some t else none) = some n → 0 < n := by
      intro t ht
      split at ht
      · cases ht
        assumption
      · cases ht
    split at h
    · cases h
    · exact key _ h

/-- C7 (witness): the universal conjuncts applied at a concrete line and
a concrete etime string. -/
theorem parseEtime_spec_witness :
    ("05:06" : String).data <:+ ("abc 05:06" : String).data ∧
    (0 : Nat) < 306 := by
  constructor
  · exact parseEtime_spec.2.2.2.2.2.2.1 "abc 05:06" "05:06" (by rfl)
  · exact parseEtime_spec.2.2.2.2.2.2.2 "05:06" 306 (by rfl)

/-! ## Claim C8: the kill loading state never sticks -/

/-- C8.  For every outcome environment — including any of the kill
invocation, gamification, cache clearing, post-kill delay or refresh
throwing, and the catch-block refresh throwing again — `handleKill` on a
selected port always reaches step 7: afterwards `isKilling` is false and
`killingPort` is null. -/
theorem handleKill_clears_loading_state (env : HKEnv) (s : HState)
    (h : env.selected.isSome = true) :
    (handleKill env s).isKilling = false ∧
    (handleKill env s).killingPort = none := by
  obtain ⟨p, hp⟩ := Option.isSome_iff_exists.mp h
  simp [handleKill, hp]

/-- C8 (witness): the loading state is cleared at a concrete environment
in which the refresh step throws. -/
theorem handleKill_clears_loading_state_witness :
    (handleKill ⟨some 3000, false, true, false, false, false, true, false⟩
        ⟨false, none, false, 0, 0, 0⟩).isKilling = false ∧
    (handleKill ⟨some 3000, false, true, false, false, false, true, false⟩
        ⟨false, none, false, 0, 0, 0⟩).killingPort = none :=
  handleKill_clears_loading_state
    ⟨some 3000, false, true, false, false, false, true, false⟩
    ⟨false, none, false, 0, 0, 0⟩ rfl

/-! ## Claim C9: circular selection navigation -/

/-- C9.  Over a filtered, flattened port list of length `N`:
`moveSelection(-1)` at index 0 wraps to `N - 1`, `moveSelection(+1)` at
index `N - 1` wraps to 0 (for `N ≥ 1`), and with `N = 0` the selection is
unchanged. -/
theorem moveSelection_wraps (N : Nat) :
    (1 ≤ N → moveSelection N 0 (-1) = (N : Int) - 1 ∧
      moveSelection N ((N : Int) - 1) 1 = 0) ∧
    (∀ idx dir, moveSelection 0 idx dir = idx) := by
  constructor
  · intro hN
    have hne : N ≠ 0 := by omega
    constructor
    · simp [moveSelection, hne]
    · have h1 : ¬((N : Int) - 1 + 1 < 0) := by omega
      have h2 : (N : Int) - 1 + 1 ≥ (N : Int) := by omega
      simp [moveSelection, hne, h1, h2]
  · intro idx dir
    simp [moveSelection]

/-- C9 (witness): the wrap theorem at the concrete length 3. -/
theorem moveSelection_wraps_witness :
    moveSelection 3 0 (-1) = 2 ∧ moveSelection 3 2 1 = 0 ∧
    moveSelection 0 5 1 = 5 := by
  refine ⟨?_, ?_, (moveSelection_wraps 3).2 5 1⟩
  · exact ((moveSelection_wraps 3).1 (by decide)).1
  · exact ((moveSelection_wraps 3).1 (by decide)).2

/-! ## Claim C10: killPort with default flags is a confirmation sentinel -/

/-- C10.  For every adapter behaviour, adapter state and PortInfo,
`killPort(portInfo, force := false, confirm := true)` (the defaults)
returns false without invoking the adapter's `killProcess` (zero calls)
and leaves process and cache state unchanged. -/
theorem killPort_default_is_confirmation_sentinel (adapter : KillAdapter)
    (st : AdapterState) (info : PortInfo) :
    killPort adapter st info false true = (false, st, 0) := rfl

end Wtfport
